import Mathlib

/-!
Shallow embedding of the P4_SceneLoading repository: the scene scheduler
(`src_client/scene_scheduler.cpp`), the loader worker pool
(`src_client/scene_loader.cpp`), the streaming client
(`src_client/scene_client.cpp`) and the content service
(`src_server/scene_service_impl.cpp`), with theorems checking the
specification's claims about them.
-/

namespace P4

/-- `enum class SceneState` from `scene_types.h`. -/
inductive SceneState where
  | UNLOADED
  | QUEUED
  | LOADING
  | LOADED
  | ERROR_STATE
deriving DecidableEq, Repr

/-- The scheduler's view of a `SceneDescriptor` (`scene_types.h`): the fields
`SceneScheduler` reads or writes are `scene_id` and the atomic `state`.
The other descriptor fields (models, handles, bounds, thumbnail) are never
touched by the scheduler and are modelled separately where needed. -/
structure SchedDesc where
  scene_id : String
  state : SceneState
deriving DecidableEq, Repr

/-- `std::map<std::string, std::shared_ptr<SceneDescriptor>> scenes_` from
`scene_scheduler.h`, embedded as an association list kept sorted by key in
strictly ascending order, which is the order `std::map` iterates in. -/
abbrev SceneMap := List (String × SchedDesc)

/-- `scenes_.find(scene_id)` — lookup by key. -/
def findScene : SceneMap → String → Option SchedDesc
  | [], _ => none
  | (k, d) :: rest, key => if k = key then some d else findScene rest key

/-- Lexicographic character comparison, the order `std::less<std::string>`
imposes on the keys of `scenes_`. -/
def keyLt : List Char → List Char → Bool
  | [], [] => false
  | [], _ :: _ => true
  | _ :: _, [] => false
  | a :: as, b :: bs =>
    if a.val < b.val then true
    else if b.val < a.val then false
    else keyLt as bs

/-- `std::less<std::string>` on whole keys. -/
def strLt (a b : String) : Bool := keyLt a.toList b.toList

/-- `scenes_.erase(it)` — remove the entry with the given key, if present. -/
def eraseScene : SceneMap → String → SceneMap
  | [], _ => []
  | (k, d) :: rest, key =>
    if k = key then rest else (k, d) :: eraseScene rest key

/-- `scenes_.emplace(scene_id, sd)` — `std::map` insertion: the new entry goes
to its key-sorted position, and an existing entry with the same key is left
unchanged. -/
def emplaceScene : SceneMap → String → SchedDesc → SceneMap
  | [], key, d => [(key, d)]
  | (k, e) :: rest, key, d =>
    if strLt key k then (key, d) :: (k, e) :: rest
    else if key = k then (k, e) :: rest
    else (k, e) :: emplaceScene rest key d

/-- `SceneScheduler::RegisterScene` (`scene_scheduler.cpp`): if the id is not
in the map, create a descriptor with that `scene_id` and state `UNLOADED` and
emplace it; otherwise do nothing. -/
def registerScene (m : SceneMap) (scene_id : String) : SceneMap :=
  match findScene m scene_id with
  | some _ => m
  | none => emplaceScene m scene_id { scene_id := scene_id, state := SceneState.UNLOADED }

/-- `SceneScheduler::PrioritizeScene` (`scene_scheduler.cpp`): look the id up;
if found, erase the entry and emplace the same descriptor again under the same
key. -/
def prioritizeScene (m : SceneMap) (scene_id : String) : SceneMap :=
  match findScene m scene_id with
  | none => m
  | some sd => emplaceScene (eraseScene m scene_id) scene_id sd

/-- `SceneScheduler::UnloadScene` (`scene_scheduler.cpp`): if the id is found,
store `UNLOADED` into the descriptor's state; nothing else is written (the
descriptor has no cancel token to trip in `scene_types.h`). -/
def unloadScene : SceneMap → String → SceneMap
  | [], _ => []
  | (k, d) :: rest, key =>
    if k = key then (k, { d with state := SceneState.UNLOADED }) :: rest
    else (k, d) :: unloadScene rest key

/-- The snapshot `SchedulerThread` takes under the lock: the descriptors in
map iteration order. -/
def snapshot (m : SceneMap) : List SchedDesc :=
  m.map (fun p => p.2)

/-- `st == SceneState::LOADED || st == SceneState::LOADING` from the counting
loop of `SchedulerThread`. -/
def isLoadedOrLoading (s : SceneState) : Bool :=
  s = SceneState.LOADED || s = SceneState.LOADING

/-- The admission walk of `SchedulerThread`: go through the snapshot in order;
while the budget is positive, each `UNLOADED` descriptor is set to `QUEUED`
and handed to `loader_->EnqueueLoad`. Returns the updated descriptors and the
scene ids passed to `EnqueueLoad`, in call order. -/
def admitWalk : Nat → List SchedDesc → List SchedDesc × List String
  | _, [] => ([], [])
  | toStart, d :: rest =>
    if toStart = 0 then (d :: rest, [])
    else if d.state = SceneState.UNLOADED then
      let r := admitWalk (toStart - 1) rest
      ({ d with state := SceneState.QUEUED } :: r.1, d.scene_id :: r.2)
    else
      let r := admitWalk toStart rest
      (d :: r.1, r.2)

/-- One iteration of `SceneScheduler::SchedulerThread`'s loop body: count the
descriptors that are `LOADED` or `LOADING`, set the budget to
`max(0, 5 - count)` (natural subtraction), and run the admission walk over the
snapshot. -/
def admissionPass (snap : List SchedDesc) : List SchedDesc × List String :=
  let loadedOrLoading := (snap.filter (fun d => isLoadedOrLoading d.state)).length
  let toStart := 5 - loadedOrLoading
  admitWalk toStart snap

/-! ## Content service (`src_server/scene_service_impl.cpp`) -/

/-- gRPC status codes the service returns. -/
inductive StatusCode where
  | OK
  | NOT_FOUND
  | CANCELLED
  | INTERNAL
deriving DecidableEq, Repr

/-- `scene::Chunk` wire message: payload bytes, starting offset, end marker. -/
structure Chunk where
  data : List Nat
  offset : Nat
  last : Bool
deriving DecidableEq, Repr

/-- `scene::ModelRequest` wire message. -/
structure ModelRequest where
  scene_id : String
  model_rel_path : String
  offset : Nat
deriving DecidableEq, Repr

/-- `scene::ModelInfo` wire message. -/
structure ModelInfo where
  name : String
  rel_path : String
  size_bytes : Nat
deriving DecidableEq, Repr

/-- The data length of a chunk (`chunk.data().size()`). -/
def dataLen (c : Chunk) : Nat := c.data.length

/-- The read loop of `SceneServiceImpl::StreamModel`: read up to `chunkSize`
bytes at a time from the file; each non-empty read is sent as one chunk with
the running `offset` and `last = false`, and `offset` advances by the read
count. A read that returns no bytes ends the loop. Returns the emitted chunks
and the final value of `offset`. -/
def readLoop (chunkSize : Nat) : List Nat → Nat → List Chunk × Nat
  | [], off => ([], off)
  | b :: bs, off =>
    if _h : chunkSize = 0 then ([], off)
    else
      let r := readLoop chunkSize ((b :: bs).drop chunkSize)
        (off + ((b :: bs).take chunkSize).length)
      ({ data := (b :: bs).take chunkSize, offset := off, last := false } :: r.1, r.2)
  termination_by file _ => file.length
  decreasing_by simp [List.length_drop]; omega

/-- The chunk sequence `SceneServiceImpl::StreamModel` writes for an open
file, in an execution where every `writer->Write` succeeds (the executions
that finish with status `OK`): the data chunks of the read loop followed by
one final chunk with no payload, `last = true`, at the final offset. The
request is passed in but its `offset` field is never read by the body. -/
def streamModel (file : List Nat) (chunkSize : Nat) (_req : ModelRequest) : List Chunk :=
  let r := readLoop chunkSize file 0
  r.1 ++ [{ data := [], offset := r.2, last := true }]

/-- `SceneServiceImpl::StreamModel` entry: resolve
`<media_root>/<scene_id>/<rel_path>` through the ambient filesystem (given as
a function from the two request path fields to the file's bytes, `none` when
the path is not an existing regular file); absent files get `NOT_FOUND`,
present ones are streamed. -/
def streamModelRPC (resolve : String → String → Option (List Nat))
    (chunkSize : Nat) (req : ModelRequest) : Except StatusCode (List Chunk) :=
  match resolve req.scene_id req.model_rel_path with
  | none => Except.error StatusCode.NOT_FOUND
  | some file => Except.ok (streamModel file chunkSize req)

/-- Running totals before each element: `prefixSums a [l0, l1, l2] =
[a, a + l0, a + l0 + l1]`. States "each offset is the sum of the data lengths
of all previously emitted chunks". -/
def prefixSums (acc : Nat) : List Nat → List Nat
  | [] => []
  | l :: ls => acc :: prefixSums (acc + l) ls

/-- One entry seen by `fs::directory_iterator` over the scene directory: its
filename, whether `is_regular_file()` holds, and `fs::file_size` in bytes. -/
structure DirEntry where
  filename : String
  is_regular_file : Bool
  size : Nat
deriving DecidableEq, Repr

/-- Split a character list at its rightmost dot: `(before, from the dot on)`;
`none` when there is no dot. -/
def splitLastDot : List Char → Option (List Char × List Char)
  | [] => none
  | c :: cs =>
    match splitLastDot cs with
    | some (pre, post) => some (c :: pre, post)
    | none => if c = '.' then some ([], c :: cs) else none

/-- `std::filesystem::path::stem` and `::extension` of a filename: split at
the rightmost period, except that `"."`, `".."`, a name with no period, and a
name whose only period is its first character have an empty extension. -/
def stemExt (f : String) : String × String :=
  if f = "." ∨ f = ".." then (f, "")
  else
    match splitLastDot f.toList with
    | none => (f, "")
    | some ([], _) => (f, "")
    | some (pre, post) => (String.mk pre, String.mk post)

/-- `SceneServiceImpl::GetSceneManifest`: when `<media_root>/<scene_id>` does
not exist or is not a directory (the `none` case), return `NOT_FOUND`;
otherwise walk the directory entries in order, skip ones that are not regular
files, and for each with extension `".obj"` add a `ModelInfo` with the file's
stem, filename and size. (The thumbnail side channel does not touch the
status or the models and is not modelled.) -/
def getSceneManifest (sceneDir : Option (List DirEntry)) :
    Except StatusCode (List ModelInfo) :=
  match sceneDir with
  | none => Except.error StatusCode.NOT_FOUND
  | some entries =>
    Except.ok ((entries.filter
        (fun e => e.is_regular_file && (stemExt e.filename).2 == ".obj")).map
      (fun e => { name := (stemExt e.filename).1, rel_path := e.filename, size_bytes := e.size }))

/-- The claim's wording of the manifest body, as one definition: one
`ModelInfo` per regular file whose extension is `".obj"`, with `name` the
file's stem, `rel_path` the file's name, `size_bytes` the file's length. -/
def manifestPerClaim (entries : List DirEntry) : List ModelInfo :=
  entries.filterMap (fun e =>
    if e.is_regular_file = true ∧ (stemExt e.filename).2 = ".obj" then
      some { name := (stemExt e.filename).1, rel_path := e.filename, size_bytes := e.size }
    else none)

/-! ## Streaming client (`src_client/scene_client.cpp`) -/

/-- Outcome of `SceneClient::StreamModelToFile`: the returned boolean, the
contents sitting at `out_path` afterwards (`none` when no file exists there),
whether the output stream was ever opened, and the successive first arguments
passed to `progress_cb`, in call order. -/
structure ClientStreamResult where
  ok : Bool
  fileAfter : Option (List Nat)
  opened : Bool
  progressValues : List Nat
deriving DecidableEq, Repr

/-- The client's `while (reader->Read(&chunk))` loop: per chunk, poll the
cancel token; then, when the chunk carries data, append it to the file,
advance `bytes_written` by the data size and report the new total to
`progress_cb`; stop after a chunk with `last = true`. Returns the bytes
appended to the file, the progress values reported, and whether cancellation
was detected. -/
def clientLoop (cancel : Option Bool) : List Chunk → Nat → List Nat × List Nat × Bool
  | [], _ => ([], [], false)
  | c :: cs, bytesWritten =>
    if cancel = some true then ([], [], true)
    else
      let written := if 0 < c.data.length then c.data else []
      let vals := if 0 < c.data.length then [bytesWritten + c.data.length] else []
      if c.last then (written, vals, false)
      else
        let bw := if 0 < c.data.length then bytesWritten + c.data.length else bytesWritten
        let r := clientLoop cancel cs bw
        (written ++ r.1, vals ++ r.2.1, r.2.2)

/-- `SceneClient::StreamModelToFile`: the request is sent with `offset = 0`;
a cancel token that is already set is detected before the output file is
opened and makes the call return `false` with nothing touched; otherwise the
file is truncate-opened and the chunk loop runs; on detected cancellation or
on `reader->Finish()` failure (`rpcOk = false`) the partial file is removed
and `false` returned. -/
def streamModelToFile (cancel : Option Bool) (chunks : List Chunk)
    (rpcOk : Bool) (fileBefore : Option (List Nat)) : ClientStreamResult :=
  if cancel = some true then
    { ok := false, fileAfter := fileBefore, opened := false, progressValues := [] }
  else
    let r := clientLoop cancel chunks 0
    if r.2.2 then
      { ok := false, fileAfter := none, opened := true, progressValues := r.2.1 }
    else if rpcOk then
      { ok := true, fileAfter := some r.1, opened := true, progressValues := r.2.1 }
    else
      { ok := false, fileAfter := none, opened := true, progressValues := r.2.1 }

/-! ## Loader worker (`src_client/scene_loader.cpp`), descriptor-state writes -/

/-- A store of a fixed state (`state.store(s)`). -/
def constWrite (s : SceneState) : SceneState → SceneState := fun _ => s

/-- The worker's final step: `if (state.load() != ERROR_STATE)
state.store(LOADED)`. -/
def finalizeWrite : SceneState → SceneState :=
  fun s => if s = SceneState.ERROR_STATE then s else SceneState.LOADED

/-- The descriptor-state writes of the worker's per-model loop, starting at
model `i` with `k` models left: a failing `StreamModelToFile` or a failing
parse stores `ERROR_STATE` and breaks; a successful model writes no state. -/
def modelLoopWrites (streamOk parseOk : Nat → Bool) : Nat → Nat → List (SceneState → SceneState)
  | _, 0 => []
  | i, k + 1 =>
    if streamOk i then
      if parseOk i then modelLoopWrites streamOk parseOk (i + 1) k
      else [constWrite SceneState.ERROR_STATE]
    else [constWrite SceneState.ERROR_STATE]

/-- The external outcomes one dequeued descriptor meets in
`SceneLoader::WorkerThread`: whether `GetSceneManifest` succeeds, the adopted
manifest, and per-model success of `StreamModelToFile` and of
`LoadOBJToMeshData`. -/
structure WorkerEnv where
  manifestOk : Bool
  models : List ModelInfo
  streamOk : Nat → Bool
  parseOk : Nat → Bool

/-- All state writes `WorkerThread` performs on a dequeued descriptor, in
program order: the claim step stores `LOADING` unconditionally; a failed
manifest stores `ERROR_STATE` and gives up (no finalize); otherwise the
per-model loop runs and then the finalize step runs. -/
def workerWrites (env : WorkerEnv) : List (SceneState → SceneState) :=
  constWrite SceneState.LOADING ::
    (if env.manifestOk then
      modelLoopWrites env.streamOk env.parseOk 0 env.models.length ++ [finalizeWrite]
    else [constWrite SceneState.ERROR_STATE])

/-- Whether the worker calls `GetSceneManifest` for a dequeued descriptor:
`WorkerThread` does so unconditionally, right after the claim write, with no
look at the descriptor's current state. -/
def workerFetchesManifest (_env : WorkerEnv) : Bool := true

/-- Run a list of state writes left to right from an initial state. -/
def runWrites (s : SceneState) : List (SceneState → SceneState) → SceneState
  | [] => s
  | w :: ws => runWrites (w s) ws

/-- Insert an element at position `k` (append when `k` exceeds the length). -/
def insertAt : Nat → α → List α → List α
  | 0, w, xs => w :: xs
  | _ + 1, w, [] => [w]
  | k + 1, w, x :: xs => x :: insertAt k w xs

/-- The descriptor's final state when a concurrent `UnloadScene` — whose only
effect is one `state.store(UNLOADED)`, the descriptor having no cancel token
to trip — lands after the worker's first `k` writes. -/
def finalStateWithUnload (env : WorkerEnv) (k : Nat) (s0 : SceneState) : SceneState :=
  runWrites s0 (insertAt k (constWrite SceneState.UNLOADED) (workerWrites env))

/-! ## Bounds and normalization (`scene_loader.cpp`, WorkerThread lines
110-146), embedded over exact rationals: every arithmetic step mirrors the
float expression the code evaluates. -/

/-- `glm::vec3` with exact rational components. -/
structure Vec3 where
  x : ℚ
  y : ℚ
  z : ℚ
deriving DecidableEq, Repr

/-- `glm::vec4`. -/
structure Vec4 where
  x : ℚ
  y : ℚ
  z : ℚ
  w : ℚ
deriving DecidableEq, Repr

/-- `glm::mat4`: four columns, as glm stores and indexes it (`m[3]` is the
fourth column). -/
structure Mat4 where
  c0 : Vec4
  c1 : Vec4
  c2 : Vec4
  c3 : Vec4
deriving DecidableEq, Repr

def Vec4.smul (a : ℚ) (v : Vec4) : Vec4 := ⟨a * v.x, a * v.y, a * v.z, a * v.w⟩

def Vec4.add (u v : Vec4) : Vec4 := ⟨u.x + v.x, u.y + v.y, u.z + v.z, u.w + v.w⟩

/-- glm matrix–vector product: the linear combination of the columns by the
vector's components. -/
def Mat4.mulVec (m : Mat4) (v : Vec4) : Vec4 :=
  Vec4.add (Vec4.add (Vec4.smul v.x m.c0) (Vec4.smul v.y m.c1))
    (Vec4.add (Vec4.smul v.z m.c2) (Vec4.smul v.w m.c3))

/-- glm matrix–matrix product: apply the left matrix to each column of the
right one. -/
def Mat4.mul (a b : Mat4) : Mat4 :=
  ⟨a.mulVec b.c0, a.mulVec b.c1, a.mulVec b.c2, a.mulVec b.c3⟩

/-- `glm::mat4(1.0f)`. -/
def Mat4.identity : Mat4 :=
  ⟨⟨1, 0, 0, 0⟩, ⟨0, 1, 0, 0⟩, ⟨0, 0, 1, 0⟩, ⟨0, 0, 0, 1⟩⟩

/-- `T = mat4(1); T[3] = vec4(t, 1)` — identity with its fourth column
replaced. -/
def translateMat (t : Vec3) : Mat4 :=
  { Mat4.identity with c3 := ⟨t.x, t.y, t.z, 1⟩ }

/-- `S = mat4(1); S[0][0] = S[1][1] = S[2][2] = s`. -/
def scaleMat (s : ℚ) : Mat4 :=
  ⟨⟨s, 0, 0, 0⟩, ⟨0, s, 0, 0⟩, ⟨0, 0, s, 0⟩, ⟨0, 0, 0, 1⟩⟩

/-- `FLT_MAX`, the initial value of the bounds fold, exactly:
`(2 - 2^-23) * 2^127`. -/
def FLT_MAX : ℚ := 2 ^ 128 - 2 ^ 104

/-- `glm::min`, componentwise. -/
def vmin (a b : Vec3) : Vec3 := ⟨min a.x b.x, min a.y b.y, min a.z b.z⟩

/-- `glm::max`, componentwise. -/
def vmax (a b : Vec3) : Vec3 := ⟨max a.x b.x, max a.y b.y, max a.z b.z⟩

/-- The bounding-box loop: `minv(FLT_MAX), maxv(-FLT_MAX)` folded with
componentwise min/max over the vertex positions. -/
def boundsFold (ps : List Vec3) : Vec3 × Vec3 :=
  ps.foldl (fun mm p => (vmin mm.1 p, vmax mm.2 p))
    (⟨FLT_MAX, FLT_MAX, FLT_MAX⟩, ⟨-FLT_MAX, -FLT_MAX, -FLT_MAX⟩)

/-- What WorkerThread computes for one parsed model and records: the model
matrix stored into `model_transforms[i]` by the upload task, and the bounds
stored into `model_bounds[i]`. -/
structure NormResult where
  center : Vec3
  max_extent : ℚ
  scale : ℚ
  model_matrix : Mat4
  bounds_center : Vec3
  bounds_radius : ℚ
deriving Repr

/-- The normalization block of `WorkerThread`: bounds, `center =
(minv+maxv)*0.5`, `extent = maxv-minv`, `max_extent` its largest component,
`orig_radius = 0.5*max_extent`, `scale = 1/max_extent` when positive else 1,
`model_matrix = S * T` with `T` translating by `-center` and `S` scaling by
`scale`, `tc = model_matrix * vec4(center, 1)`, and
`transformed_radius = orig_radius * scale`. -/
def normalizeModel (positions : List Vec3) : NormResult :=
  let mm := boundsFold positions
  let minv := mm.1
  let maxv := mm.2
  let center : Vec3 :=
    ⟨(minv.x + maxv.x) * (1 / 2), (minv.y + maxv.y) * (1 / 2), (minv.z + maxv.z) * (1 / 2)⟩
  let extent : Vec3 := ⟨maxv.x - minv.x, maxv.y - minv.y, maxv.z - minv.z⟩
  let max_extent := max (max extent.x extent.y) extent.z
  let orig_radius := (1 / 2) * max_extent
  let scale := if 0 < max_extent then 1 / max_extent else 1
  let T := translateMat ⟨-center.x, -center.y, -center.z⟩
  let S := scaleMat scale
  let model_matrix := Mat4.mul S T
  let tc := model_matrix.mulVec ⟨center.x, center.y, center.z, 1⟩
  { center := center, max_extent := max_extent, scale := scale,
    model_matrix := model_matrix,
    bounds_center := ⟨tc.x, tc.y, tc.z⟩,
    bounds_radius := orig_radius * scale }

/-- The claim's `min`: the componentwise lower bound of the positions. -/
def claimMin (p0 : Vec3) (ps : List Vec3) : Vec3 := ps.foldl vmin p0

/-- The claim's `max`: the componentwise upper bound of the positions. -/
def claimMax (p0 : Vec3) (ps : List Vec3) : Vec3 := ps.foldl vmax p0

/-- The claim's `center = (min+max)/2`. -/
def claimCenter (p0 : Vec3) (ps : List Vec3) : Vec3 :=
  ⟨((claimMin p0 ps).x + (claimMax p0 ps).x) / 2,
   ((claimMin p0 ps).y + (claimMax p0 ps).y) / 2,
   ((claimMin p0 ps).z + (claimMax p0 ps).z) / 2⟩

/-- The claim's `max_extent`: the largest component of `max - min`. -/
def claimMaxExtent (p0 : Vec3) (ps : List Vec3) : ℚ :=
  max (max ((claimMax p0 ps).x - (claimMin p0 ps).x) ((claimMax p0 ps).y - (claimMin p0 ps).y))
    ((claimMax p0 ps).z - (claimMin p0 ps).z)

/-- The claim's `scale`: `1/max_extent` when `max_extent > 0`, else 1. -/
def claimScale (p0 : Vec3) (ps : List Vec3) : ℚ :=
  if 0 < claimMaxExtent p0 ps then 1 / claimMaxExtent p0 ps else 1

/-! ## Theorems -/

/-- What the read loop emits, for a positive chunk size: offsets are the
running sums of the data lengths starting at `off`, the final offset is `off`
plus the total data length, the total data length is the file's length, and
every emitted chunk is a non-empty data chunk with `last = false`. -/
theorem readLoop_spec (chunkSize : Nat) (file : List Nat) (off : Nat)
    (h : chunkSize ≠ 0) :
    (readLoop chunkSize file off).1.map Chunk.offset
        = prefixSums off ((readLoop chunkSize file off).1.map dataLen) ∧
    (readLoop chunkSize file off).2
        = off + ((readLoop chunkSize file off).1.map dataLen).sum ∧
    ((readLoop chunkSize file off).1.map dataLen).sum = file.length ∧
    (∀ c ∈ (readLoop chunkSize file off).1, c.last = false ∧ c.data ≠ []) := by
  induction file, off using readLoop.induct chunkSize with
  | case1 off => simp [readLoop, prefixSums]
  | case2 b bs off hz => exact absurd hz h
  | case3 b bs off hz ih =>
    rw [readLoop] at *
    simp only [dif_neg hz] at *
    obtain ⟨ih1, ih2, ih3, ih4⟩ := ih
    refine ⟨?_, ?_, ?_, ?_⟩
    · simp only [List.map_cons, prefixSums, dataLen]
      rw [ih1]
    · simp only [List.map_cons, List.sum_cons, dataLen]
      rw [ih2]
      omega
    · simp only [List.map_cons, List.sum_cons, dataLen]
      rw [ih3]
      simp only [List.length_drop, List.length_take]
      have hlen : (b :: bs).length = bs.length + 1 := rfl
      omega
    · intro c hc
      rcases List.mem_cons.mp hc with hc | hc
      · subst hc
        refine ⟨rfl, ?_⟩
        simpa using hz
      · exact ih4 c hc

/-- Appending one element to the summed list appends the grand total to the
running sums. -/
theorem prefixSums_append_single (ls : List Nat) (x acc : Nat) :
    prefixSums acc (ls ++ [x]) = prefixSums acc ls ++ [acc + ls.sum] := by
  induction ls generalizing acc with
  | nil => simp [prefixSums]
  | cons l ls ih => simp [prefixSums, ih, Nat.add_assoc]

/-- Running sums are strictly increasing when every increment that gets used
(all but the final list entry) is positive. -/
theorem chain'_lt_prefixSums (ls : List Nat) (acc : Nat)
    (h : ∀ l ∈ ls.dropLast, 0 < l) :
    List.Chain' (fun a b => a < b) (prefixSums acc ls) := by
  induction ls generalizing acc with
  | nil => simp [prefixSums]
  | cons l ls ih =>
    rw [prefixSums, List.chain'_cons']
    constructor
    · intro b hb
      cases ls with
      | nil => simp [prefixSums] at hb
      | cons l2 ls2 =>
        rw [prefixSums] at hb
        simp only [List.head?_cons, Option.mem_def, Option.some.injEq] at hb
        have hl : 0 < l := h l (by simp)
        omega
    · refine ih (acc + l) (fun x hx => h x ?_)
      cases ls with
      | nil => simp at hx
      | cons l2 ls2 =>
        simp only [List.dropLast_cons₂, List.mem_cons] at hx ⊢
        exact Or.inr hx

/-- C3: a `StreamModel` stream that completes with status `OK` (every write
succeeded), for a positive configured chunk size, satisfies the chunk-stream
invariants: offsets strictly increase, each offset is the sum of the preceding
data lengths, the data lengths sum to the file's byte length, and the stream
is data chunks followed by exactly one `last = true` chunk carrying no
payload. -/
theorem streamModel_ok_chunk_invariants (file : List Nat) (chunkSize : Nat)
    (req : ModelRequest) (h : 0 < chunkSize) :
    List.Pairwise (fun a b => a < b) ((streamModel file chunkSize req).map Chunk.offset) ∧
    (streamModel file chunkSize req).map Chunk.offset
      = prefixSums 0 ((streamModel file chunkSize req).map dataLen) ∧
    ((streamModel file chunkSize req).map dataLen).sum = file.length ∧
    (∃ dcs t, streamModel file chunkSize req = dcs ++ [t] ∧
      (∀ c ∈ dcs, c.last = false ∧ c.data ≠ []) ∧ t.last = true ∧ t.data = []) := by
  have hz : chunkSize ≠ 0 := Nat.pos_iff_ne_zero.mp h
  obtain ⟨h1, h2, h3, h4⟩ := readLoop_spec chunkSize file 0 hz
  have hsm : streamModel file chunkSize req
      = (readLoop chunkSize file 0).1
        ++ [{ data := [], offset := (readLoop chunkSize file 0).2, last := true }] := rfl
  have hlens : (streamModel file chunkSize req).map dataLen
      = (readLoop chunkSize file 0).1.map dataLen ++ [0] := by
    simp [hsm, dataLen]
  have hoffs : (streamModel file chunkSize req).map Chunk.offset
      = (readLoop chunkSize file 0).1.map Chunk.offset ++ [(readLoop chunkSize file 0).2] := by
    simp [hsm]
  have key : (streamModel file chunkSize req).map Chunk.offset
      = prefixSums 0 ((streamModel file chunkSize req).map dataLen) := by
    rw [hoffs, hlens, prefixSums_append_single, h1, h2]
  refine ⟨?_, key, ?_, ?_⟩
  · rw [← List.chain'_iff_pairwise, key, hlens]
    apply chain'_lt_prefixSums
    intro l hl
    rw [List.dropLast_concat] at hl
    obtain ⟨c, hc, hcl⟩ := List.mem_map.mp hl
    have := (h4 c hc).2
    subst hcl
    simpa [dataLen, List.length_pos] using this
  · rw [hlens]
    simpa using h3
  · exact ⟨(readLoop chunkSize file 0).1, _, hsm, h4, rfl, rfl⟩

/-- C3 witness: the invariants evaluated on the concrete file `[1, 2, 3]`
streamed with chunk size 2. -/
theorem streamModel_ok_chunk_invariants_witness :
    List.Pairwise (fun a b => a < b)
      ((streamModel [1, 2, 3] 2 { scene_id := "s", model_rel_path := "m.obj", offset := 0 }).map
        Chunk.offset) ∧
    (streamModel [1, 2, 3] 2 { scene_id := "s", model_rel_path := "m.obj", offset := 0 }).map
        Chunk.offset
      = prefixSums 0
          ((streamModel [1, 2, 3] 2 { scene_id := "s", model_rel_path := "m.obj", offset := 0 }).map
            dataLen) ∧
    ((streamModel [1, 2, 3] 2 { scene_id := "s", model_rel_path := "m.obj", offset := 0 }).map
        dataLen).sum
      = ([1, 2, 3] : List Nat).length ∧
    (∃ dcs t,
      streamModel [1, 2, 3] 2 { scene_id := "s", model_rel_path := "m.obj", offset := 0 }
        = dcs ++ [t] ∧
      (∀ c ∈ dcs, c.last = false ∧ c.data ≠ []) ∧ t.last = true ∧ t.data = []) :=
  streamModel_ok_chunk_invariants [1, 2, 3] 2
    { scene_id := "s", model_rel_path := "m.obj", offset := 0 } (by decide)

/-- C3 counterexample: with the configured chunk size 0 (the server accepts it
from the command line unvalidated), streaming the one-byte file `[7]` still
completes with status `OK` but delivers 0 data bytes, not the file's size:
the read loop's first read returns no bytes and only the terminal chunk is
emitted. -/
theorem streamModel_zero_chunk_size_counterexample :
    ((streamModel [7] 0 { scene_id := "s", model_rel_path := "m.obj", offset := 0 }).map
        dataLen).sum = 0 ∧
    ([7] : List Nat).length = 1 ∧
    streamModel [7] 0 { scene_id := "s", model_rel_path := "m.obj", offset := 0 }
      = [{ data := [], offset := 0, last := true }] := by
  refine ⟨?_, rfl, ?_⟩ <;> simp [streamModel, readLoop, dataLen]

/-- C10: `StreamModel` never reads the request's `offset` field — the reply
stream for any requested offset equals the reply stream for offset 0 (the
whole file from byte 0), and the first emitted chunk always has offset 0. -/
theorem streamModel_ignores_request_offset
    (resolve : String → String → Option (List Nat)) (chunkSize : Nat)
    (sid rp : String) (o : Nat) (file : List Nat) :
    streamModelRPC resolve chunkSize { scene_id := sid, model_rel_path := rp, offset := o }
      = streamModelRPC resolve chunkSize { scene_id := sid, model_rel_path := rp, offset := 0 } ∧
    ((streamModel file chunkSize { scene_id := sid, model_rel_path := rp, offset := o }).map
        Chunk.offset).head? = some 0 := by
  constructor
  · rfl
  · cases file with
    | nil => simp [streamModel, readLoop]
    | cons b bs =>
      by_cases hz : chunkSize = 0
      · simp [streamModel, readLoop, hz]
      · simp [streamModel, readLoop, hz]

/-- The filter-then-map the service performs equals the claim's filterMap. -/
theorem filter_map_eq_manifestPerClaim (es : List DirEntry) :
    (es.filter (fun e => e.is_regular_file && (stemExt e.filename).2 == ".obj")).map
        (fun e => ({ name := (stemExt e.filename).1, rel_path := e.filename,
                     size_bytes := e.size } : ModelInfo))
      = manifestPerClaim es := by
  induction es with
  | nil => rfl
  | cons e es ih =>
    simp only [manifestPerClaim, List.filterMap_cons] at *
    simp only [List.filter_cons]
    by_cases h1 : (e.is_regular_file && (stemExt e.filename).2 == ".obj") = true
    · have hp : e.is_regular_file = true ∧ (stemExt e.filename).2 = ".obj" := by
        simpa using h1
      simp [h1, hp, ih]
    · have hp : ¬(e.is_regular_file = true ∧ (stemExt e.filename).2 = ".obj") := by
        simpa using h1
      simp [h1, hp, ih]

/-- C4: `GetSceneManifest` returns `NOT_FOUND` exactly when the scene
directory does not exist (or is not a directory); otherwise it returns `OK`
with one `ModelInfo` per regular `.obj` file: name = stem, rel_path = file
name, size_bytes = file length. -/
theorem getSceneManifest_correct (sceneDir : Option (List DirEntry)) :
    (getSceneManifest sceneDir = Except.error StatusCode.NOT_FOUND ↔ sceneDir = none) ∧
    (∀ es, getSceneManifest (some es) = Except.ok (manifestPerClaim es)) := by
  constructor
  · cases sceneDir with
    | none => simp [getSceneManifest]
    | some es => simp [getSceneManifest]
  · intro es
    simp only [getSceneManifest, Except.ok.injEq]
    exact filter_map_eq_manifestPerClaim es

/-- The loop's progress values are chained non-decreasing and each lies
between the running total at entry and that total plus all remaining data. -/
theorem clientLoop_progress_spec (cancel : Option Bool) (chunks : List Chunk)
    (acc : Nat) :
    List.Chain' (fun a b => a ≤ b) (clientLoop cancel chunks acc).2.1 ∧
    (∀ v ∈ (clientLoop cancel chunks acc).2.1,
      acc ≤ v ∧ v ≤ acc + (chunks.map dataLen).sum) := by
  induction chunks generalizing acc with
  | nil => simp [clientLoop]
  | cons c cs ih =>
    by_cases hcl : cancel = some true
    · simp [clientLoop, hcl]
    · by_cases hlast : c.last = true
      · by_cases hd : 0 < c.data.length
        · refine ⟨?_, ?_⟩ <;> simp [clientLoop, hcl, hlast, hd, dataLen]
        · refine ⟨?_, ?_⟩ <;> simp [clientLoop, hcl, hlast, hd, dataLen]
      · have hl : c.last = false := by simpa using hlast
        by_cases hd : 0 < c.data.length
        · obtain ⟨ihc, ihb⟩ := ih (acc + c.data.length)
          refine ⟨?_, ?_⟩
          · simp only [clientLoop, hcl, if_neg hcl, hl, if_pos hd, Bool.false_eq_true,
              if_false]
            rw [List.singleton_append, List.chain'_cons']
            refine ⟨?_, ihc⟩
            intro y hy
            have hym := List.mem_of_mem_head? hy
            exact (ihb y hym).1
          · intro v hv
            simp only [clientLoop, hcl, if_neg hcl, hl, if_pos hd, Bool.false_eq_true,
              if_false, List.mem_append, List.mem_singleton] at hv
            rcases hv with hv | hv
            · subst hv
              simp [dataLen]
            · have := ihb v hv
              simp [dataLen] at this ⊢
              omega
        · obtain ⟨ihc, ihb⟩ := ih acc
          refine ⟨?_, ?_⟩
          · simpa [clientLoop, hcl, hl, hd] using ihc
          · intro v hv
            simp only [clientLoop, hcl, if_neg hcl, hl, if_neg hd, Bool.false_eq_true,
              if_false, List.nil_append] at hv
            have := ihb v hv
            simp [dataLen] at this ⊢
            omega

/-- C5: during one call of `StreamModelToFile`, under the precondition that
the server's chunk stream carries exactly `size_bytes` bytes of data in
total, the values the progress callback stores into `bytes_received` are
non-decreasing and each lies in `[0, size_bytes]`. -/
theorem progress_monotone_and_bounded (cancel : Option Bool) (chunks : List Chunk)
    (rpcOk : Bool) (fileBefore : Option (List Nat)) (size_bytes : Nat)
    (h : (chunks.map dataLen).sum = size_bytes) :
    List.Chain' (fun a b => a ≤ b)
      (streamModelToFile cancel chunks rpcOk fileBefore).progressValues ∧
    (∀ v ∈ (streamModelToFile cancel chunks rpcOk fileBefore).progressValues,
      0 ≤ v ∧ v ≤ size_bytes) := by
  obtain ⟨hc, hb⟩ := clientLoop_progress_spec cancel chunks 0
  by_cases hcl : cancel = some true
  · simp [streamModelToFile, hcl]
  · have hpv : (streamModelToFile cancel chunks rpcOk fileBefore).progressValues
        = (clientLoop cancel chunks 0).2.1 := by
      simp only [streamModelToFile, if_neg hcl]
      by_cases h2 : (clientLoop cancel chunks 0).2.2 = true <;>
        by_cases h3 : rpcOk = true <;>
        simp [h2, h3]
    rw [hpv]
    refine ⟨hc, fun v hv => ⟨Nat.zero_le v, ?_⟩⟩
    have := (hb v hv).2
    omega

/-- C5 witness: the concrete three-chunk stream `[5,6] / [7] / terminal` with
`size_bytes = 3`, no cancel token, successful RPC. -/
theorem progress_monotone_and_bounded_witness :
    List.Chain' (fun a b => a ≤ b)
      (streamModelToFile none
        [{ data := [5, 6], offset := 0, last := false },
         { data := [7], offset := 2, last := false },
         { data := [], offset := 3, last := true }] true none).progressValues ∧
    (∀ v ∈ (streamModelToFile none
        [{ data := [5, 6], offset := 0, last := false },
         { data := [7], offset := 2, last := false },
         { data := [], offset := 3, last := true }] true none).progressValues,
      0 ≤ v ∧ v ≤ 3) :=
  progress_monotone_and_bounded none
    [{ data := [5, 6], offset := 0, last := false },
     { data := [7], offset := 2, last := false },
     { data := [], offset := 3, last := true }] true none 3 (by decide)

/-- C9: when the cancel token is already set as `StreamModelToFile` begins,
the call fails before opening the output file: whatever was at `out_path`
before the call is still there, untruncated, and no progress is reported. -/
theorem streamModelToFile_precancelled (chunks : List Chunk) (rpcOk : Bool)
    (fileBefore : Option (List Nat)) :
    streamModelToFile (some true) chunks rpcOk fileBefore
      = { ok := false, fileAfter := fileBefore, opened := false,
          progressValues := [] } := rfl

/-- With every model succeeding, the model loop writes nothing. -/
theorem modelLoopWrites_all_ok (streamOk parseOk : Nat → Bool)
    (hs : ∀ i, streamOk i = true) (hp : ∀ i, parseOk i = true) :
    ∀ k i, modelLoopWrites streamOk parseOk i k = [] := by
  intro k
  induction k with
  | zero => intro i; rfl
  | succ k ih => intro i; simp [modelLoopWrites, hs i, hp i, ih]

/-- C2 counterexample: one successfully loading model, `UnloadScene` arriving
while the worker is mid-load (after the `LOADING` claim write, before
finalize). The load attempt ends in `LOADED`, not `UNLOADED`: the worker
never observes a cancellation because none exists. -/
theorem unload_mid_load_counterexample :
    finalStateWithUnload
        { manifestOk := true, models := [{ name := "m", rel_path := "m.obj", size_bytes := 3 }],
          streamOk := fun _ => true, parseOk := fun _ => true } 1 SceneState.QUEUED
      = SceneState.LOADED ∧
    SceneState.LOADED ≠ SceneState.UNLOADED := by
  exact ⟨rfl, by decide⟩

/-- C2 as the code behaves: `UnloadScene` during a load attempt in which the
manifest call and every model's stream and parse succeed stores `UNLOADED`
once but trips no cancel token; the worker runs to its finalize step, which
reads a state that is not `ERROR_STATE` and overwrites it with `LOADED`. -/
theorem unload_mid_load_final_state (models : List ModelInfo)
    (streamOk parseOk : Nat → Bool) (s0 : SceneState)
    (hs : ∀ i, streamOk i = true) (hp : ∀ i, parseOk i = true) :
    finalStateWithUnload
        { manifestOk := true, models := models, streamOk := streamOk, parseOk := parseOk }
        1 s0
      = SceneState.LOADED := by
  simp only [finalStateWithUnload, workerWrites, if_pos,
    modelLoopWrites_all_ok streamOk parseOk hs hp models.length 0]
  rfl

/-- C2 witness for the amended statement: the single-model all-success run,
unloaded mid-flight, ends `LOADED`. -/
theorem unload_mid_load_final_state_witness :
    finalStateWithUnload
        { manifestOk := true, models := [{ name := "m", rel_path := "m.obj", size_bytes := 3 }],
          streamOk := fun _ => true, parseOk := fun _ => true } 1 SceneState.QUEUED
      = SceneState.LOADED :=
  unload_mid_load_final_state [{ name := "m", rel_path := "m.obj", size_bytes := 3 }]
    (fun _ => true) (fun _ => true) SceneState.QUEUED (fun _ => rfl) (fun _ => rfl)

/-- C7 counterexample: a descriptor whose state is `UNLOADED` at dequeue time
(marked since enqueue) is not skipped: the worker's first write is still the
unconditional `LOADING` store and it still calls `GetSceneManifest`. -/
theorem worker_no_skip_counterexample :
    workerFetchesManifest
        { manifestOk := true, models := [], streamOk := fun _ => true,
          parseOk := fun _ => true } = true ∧
    constWrite SceneState.LOADING SceneState.UNLOADED = SceneState.LOADING ∧
    (workerWrites
        { manifestOk := true, models := [], streamOk := fun _ => true,
          parseOk := fun _ => true }).head? = some (constWrite SceneState.LOADING) := by
  exact ⟨rfl, rfl, rfl⟩

/-- C7 as the code behaves: for every environment and every state the
descriptor holds at dequeue time — `UNLOADED` included — the worker's first
descriptor write is the unconditional `LOADING` store, the state after it is
`LOADING`, and the manifest is fetched; there is no skip. -/
theorem worker_always_claims (env : WorkerEnv) (s0 : SceneState) :
    workerFetchesManifest env = true ∧
    (workerWrites env).head? = some (constWrite SceneState.LOADING) ∧
    constWrite SceneState.LOADING s0 = SceneState.LOADING :=
  ⟨rfl, rfl, rfl⟩

/-- Folding a pair of folds componentwise equals the two folds. -/
theorem boundsFold_pair (ps : List Vec3) (a b : Vec3) :
    ps.foldl (fun mm p => (vmin mm.1 p, vmax mm.2 p)) (a, b)
      = (ps.foldl vmin a, ps.foldl vmax b) := by
  induction ps generalizing a b with
  | nil => rfl
  | cons p ps ih => simp [List.foldl_cons, ih]

/-- On a non-empty position list whose coordinates all lie within
`[-FLT_MAX, FLT_MAX]` (as every finite float does), the sentinel-seeded
bounds fold computes the true componentwise bounds of the list. -/
theorem boundsFold_eq_bounds (p0 : Vec3) (ps : List Vec3)
    (h0 : -FLT_MAX ≤ p0.x ∧ p0.x ≤ FLT_MAX ∧ -FLT_MAX ≤ p0.y ∧ p0.y ≤ FLT_MAX ∧
          -FLT_MAX ≤ p0.z ∧ p0.z ≤ FLT_MAX) :
    boundsFold (p0 :: ps) = (ps.foldl vmin p0, ps.foldl vmax p0) := by
  obtain ⟨h1, h2, h3, h4, h5, h6⟩ := h0
  have hmin : vmin ⟨FLT_MAX, FLT_MAX, FLT_MAX⟩ p0 = p0 := by
    simp [vmin, min_eq_right, h2, h4, h6]
  have hmax : vmax ⟨-FLT_MAX, -FLT_MAX, -FLT_MAX⟩ p0 = p0 := by
    simp [vmax, max_eq_right, h1, h3, h5]
  rw [boundsFold, List.foldl_cons]
  simpa [hmin, hmax] using boundsFold_pair ps p0 p0

/-- `(S · T) v` for a scale-by-`s` matrix and a translate-by-`(-c)` matrix is
the affine map `v ↦ s · (v - c)` in homogeneous coordinates. -/
theorem mulVec_scale_translate (s cx cy cz qx qy qz : ℚ) :
    (Mat4.mul (scaleMat s) (translateMat ⟨-cx, -cy, -cz⟩)).mulVec ⟨qx, qy, qz, 1⟩
      = ⟨s * (qx - cx), s * (qy - cy), s * (qz - cz), 1⟩ := by
  simp only [Mat4.mul, Mat4.mulVec, Vec4.smul, Vec4.add, translateMat, scaleMat, Mat4.identity]
  rw [Vec4.mk.injEq]
  refine ⟨by ring, by ring, by ring, by ring⟩

/-- C6: for a successfully parsed model with non-empty vertex positions
`p0 :: ps` all of whose coordinates are finite-float sized, the model matrix
the worker records acts on any point `q` as `q ↦ scale · (q - center)`, the
recorded bounds center is the origin, the recorded bounds radius is
`scale · (max_extent / 2)`, and whenever `max_extent > 0` that radius is
`1/2` — with `center`, `max_extent` and `scale` the claim's quantities
derived from the componentwise bounds of the positions. -/
theorem normalizeModel_correct (p0 : Vec3) (ps : List Vec3) (q : Vec3)
    (h0 : -FLT_MAX ≤ p0.x ∧ p0.x ≤ FLT_MAX ∧ -FLT_MAX ≤ p0.y ∧ p0.y ≤ FLT_MAX ∧
          -FLT_MAX ≤ p0.z ∧ p0.z ≤ FLT_MAX) :
    (normalizeModel (p0 :: ps)).model_matrix.mulVec ⟨q.x, q.y, q.z, 1⟩
      = ⟨claimScale p0 ps * (q.x - (claimCenter p0 ps).x),
         claimScale p0 ps * (q.y - (claimCenter p0 ps).y),
         claimScale p0 ps * (q.z - (claimCenter p0 ps).z), 1⟩ ∧
    (normalizeModel (p0 :: ps)).bounds_center = ⟨0, 0, 0⟩ ∧
    (normalizeModel (p0 :: ps)).bounds_radius
      = claimScale p0 ps * (claimMaxExtent p0 ps / 2) ∧
    (0 < claimMaxExtent p0 ps → (normalizeModel (p0 :: ps)).bounds_radius = 1 / 2) := by
  have hb := boundsFold_eq_bounds p0 ps h0
  simp only [normalizeModel, hb, claimScale, claimCenter, claimMaxExtent, claimMin, claimMax]
  refine ⟨?_, ?_, ?_, ?_⟩
  · rw [mulVec_scale_translate, Vec4.mk.injEq]
    refine ⟨by ring, by ring, by ring, rfl⟩
  · rw [mulVec_scale_translate, Vec3.mk.injEq]
    refine ⟨by ring, by ring, by ring⟩
  · ring
  · intro hpos
    rw [if_pos hpos]
    field_simp
    ring

/-- C6 witness: the two-vertex model `(0,0,0), (1,2,1)` — bounds min
`(0,0,0)`, max `(1,2,1)`, `max_extent = 2`, `scale = 1/2`, center
`(1/2,1,1/2)` — evaluated at the point `(1,2,1)`. -/
theorem normalizeModel_correct_witness :
    (normalizeModel [⟨0, 0, 0⟩, ⟨1, 2, 1⟩]).model_matrix.mulVec
        ⟨(⟨1, 2, 1⟩ : Vec3).x, (⟨1, 2, 1⟩ : Vec3).y, (⟨1, 2, 1⟩ : Vec3).z, 1⟩
      = ⟨claimScale ⟨0, 0, 0⟩ [⟨1, 2, 1⟩]
            * ((⟨1, 2, 1⟩ : Vec3).x - (claimCenter ⟨0, 0, 0⟩ [⟨1, 2, 1⟩]).x),
         claimScale ⟨0, 0, 0⟩ [⟨1, 2, 1⟩]
            * ((⟨1, 2, 1⟩ : Vec3).y - (claimCenter ⟨0, 0, 0⟩ [⟨1, 2, 1⟩]).y),
         claimScale ⟨0, 0, 0⟩ [⟨1, 2, 1⟩]
            * ((⟨1, 2, 1⟩ : Vec3).z - (claimCenter ⟨0, 0, 0⟩ [⟨1, 2, 1⟩]).z), 1⟩ ∧
    (normalizeModel [⟨0, 0, 0⟩, ⟨1, 2, 1⟩]).bounds_center = ⟨0, 0, 0⟩ ∧
    (normalizeModel [⟨0, 0, 0⟩, ⟨1, 2, 1⟩]).bounds_radius
      = claimScale ⟨0, 0, 0⟩ [⟨1, 2, 1⟩] * (claimMaxExtent ⟨0, 0, 0⟩ [⟨1, 2, 1⟩] / 2) ∧
    (0 < claimMaxExtent ⟨0, 0, 0⟩ [⟨1, 2, 1⟩] →
      (normalizeModel [⟨0, 0, 0⟩, ⟨1, 2, 1⟩]).bounds_radius = 1 / 2) :=
  normalizeModel_correct ⟨0, 0, 0⟩ [⟨1, 2, 1⟩] ⟨1, 2, 1⟩ (by norm_num [FLT_MAX])

/-- After `emplaceScene m x d`, key `x` is present in the map. -/
theorem findScene_emplace_isSome (m : SceneMap) (x : String) (d : SchedDesc) :
    (findScene (emplaceScene m x d) x).isSome := by
  induction m with
  | nil => simp [emplaceScene, findScene]
  | cons kv rest ih =>
    obtain ⟨k, e⟩ := kv
    by_cases h1 : strLt x k = true
    · simp [emplaceScene, h1, findScene]
    · by_cases h2 : x = k
      · subst h2
        simp [emplaceScene, h1, findScene]
      · simp [emplaceScene, h1, h2, findScene, Ne.symm h2, ih]

/-- C8: `RegisterScene` is idempotent — registering the same id twice leaves
the map exactly as one registration does, and registering an id that is
already present does not modify the map at all (so the existing descriptor's
state and contents are untouched). -/
theorem registerScene_idempotent (m : SceneMap) (x : String) :
    registerScene (registerScene m x) x = registerScene m x ∧
    ((findScene m x).isSome = true → registerScene m x = m) := by
  constructor
  · cases hf : findScene m x with
    | some d => simp [registerScene, hf]
    | none =>
      have h := findScene_emplace_isSome m x { scene_id := x, state := SceneState.UNLOADED }
      simp only [registerScene, hf]
      cases hg : findScene (emplaceScene m x { scene_id := x, state := SceneState.UNLOADED }) x with
      | some d => rfl
      | none => rw [hg] at h; simp at h
  · intro h
    cases hf : findScene m x with
    | some d => simp [registerScene, hf]
    | none => rw [hf] at h; simp at h

/-- C8 witness: on the concrete map holding a registered scene `"a"` in state
`LOADED`, a second registration changes nothing. -/
theorem registerScene_idempotent_witness :
    registerScene (registerScene [("a", { scene_id := "a", state := SceneState.LOADED })] "a") "a"
        = registerScene [("a", { scene_id := "a", state := SceneState.LOADED })] "a" ∧
    registerScene [("a", { scene_id := "a", state := SceneState.LOADED })] "a"
        = [("a", { scene_id := "a", state := SceneState.LOADED })] :=
  ⟨(registerScene_idempotent [("a", { scene_id := "a", state := SceneState.LOADED })] "a").1,
   (registerScene_idempotent [("a", { scene_id := "a", state := SceneState.LOADED })] "a").2
     (by decide)⟩

/-- C1: with scenes `"a"` and `"b"` registered and both `UNLOADED`,
`PrioritizeScene "b"` leaves the map unchanged — `std::map` is key-ordered, so
erasing and re-emplacing an entry restores its sorted position — and the next
admission pass still hands `"a"` to the loader before `"b"`, contradicting the
claim that the prioritized scene is considered first. -/
theorem prioritizeScene_does_not_reorder :
    prioritizeScene (registerScene (registerScene [] "a") "b") "b"
        = registerScene (registerScene [] "a") "b" ∧
    (admissionPass (snapshot (prioritizeScene (registerScene (registerScene [] "a") "b") "b"))).2
        = ["a", "b"] := by
  constructor
  · decide
  · decide

end P4
